import Mathlib

/-!
# Verification of the mempool-engine allocator subsystem

A shallow embedding of the three allocator engines (slab, arena, pool)
and the cache-line alignment utility, translated from the C sources.
Machine `size_t` arithmetic is modelled on `Nat` with explicit `% 2^64`
at the places where wrap-around is reachable (the alignment round-up and
the arena offset bump); the slab's counters are guarded by the structural
invariant proved below, under which the C `size_t` arithmetic never
wraps, so plain `Nat` arithmetic is exact there.

Pointers are modelled as natural-number addresses; the null pointer is
address `0`. A buffer returned by `malloc`/`aligned_alloc` is modelled
by its base address, a parameter of each `create` function (the C code's
out-of-memory paths are the modelled-success assumption of the
embedding).  Sequential executions are modelled: every
compare-and-swap succeeds on its first attempt, as in a single-threaded
run, so the C retry recursions never trigger.
-/

/-- Machine word modulus: `size_t` is 64 bits on the spec's primary targets. -/
def WORD : Nat := 2 ^ 64

/-- `CACHE_LINE_SIZE` from `include/align.h` (x86-64 / aarch64 value). -/
def CACHE_LINE_SIZE : Nat := 64

/-- `align_size_to_cache_line` from `include/align.h`:
`(sz + CACHE_LINE_SIZE - 1) & ~(CACHE_LINE_SIZE - 1)` on `size_t`.
The addition wraps modulo `2^64`; the AND with `~63` clears the low six
bits, i.e. rounds down to a multiple of 64. -/
def align_size_to_cache_line (sz : Nat) : Nat :=
  (sz + (CACHE_LINE_SIZE - 1)) % WORD / CACHE_LINE_SIZE * CACHE_LINE_SIZE

/-! ## Arena engine (second translation unit of `src/pool.c`) -/

/-- `arena_allocator_t`: base pointer, capacity, current offset. -/
structure Arena where
  memory : Nat
  capacity : Nat
  offset : Nat
  deriving Repr, DecidableEq

/-- `arena_create`: rejects zero capacity, rounds the capacity up to a
cache line, and starts with offset 0.  `mem` is the (64-byte aligned)
address returned by `aligned_alloc`. -/
def arena_create (mem : Nat) (capacity : Nat) : Option Arena :=
  if capacity = 0 then none
  else some { memory := mem, capacity := align_size_to_cache_line capacity, offset := 0 }

/-- `arena_alloc`: returns the allocated pointer (or `none`) and the
updated arena.  The offset bump `old_offset + size` is `size_t`
arithmetic and wraps modulo `2^64`; in a sequential run the CAS commits
on the first attempt. -/
def arena_alloc (a : Arena) (size : Nat) : Option Nat × Arena :=
  if size = 0 then (none, a)
  else
    let sz := align_size_to_cache_line size
    let new_offset := (a.offset + sz) % WORD
    if a.capacity < new_offset then (none, a)
    else (some (a.memory + a.offset), { a with offset := new_offset })

/-- `arena_reset`: drops the offset back to zero. -/
def arena_reset (a : Arena) : Arena :=
  { a with offset := 0 }

/-- `arena_stats`: reports `(used, capacity)`. -/
def arena_stats (a : Arena) : Nat × Nat :=
  (a.offset, a.capacity)

/-! ## Slab engine (`src/unnamed/part_000`) -/

/-- `FREE_MARKER` sentinel. -/
def FREE_MARKER : Nat := 0xDEADBEEFDEADBEEF

/-- `ALLOCATED_MARKER` sentinel. -/
def ALLOCATED_MARKER : Nat := 0xA110CA7EDEAD0001

/-- `block_metadata_t`: magic tag, free flag (a C `int`, tested against
zero), and the block's own index. -/
structure BlockMeta where
  magic : Nat
  free : Nat
  block_index : Nat
  deriving Repr, DecidableEq, Inhabited

/-- `slab_allocator_t`.  `free_list` entries are C `int`s, modelled as
`Int`; `free_idx` and `free_count` are `size_t` counters. -/
structure Slab where
  memory : Nat
  metadata : List BlockMeta
  block_size : Nat
  num_blocks : Nat
  free_count : Nat
  free_list : List Int
  free_idx : Nat
  deriving Repr, DecidableEq

/-- Metadata of block `b` (array indexing, in range whenever
`b < num_blocks` and the invariant holds). -/
def Slab.metaAt (s : Slab) (b : Nat) : BlockMeta :=
  s.metadata.getD b default

/-- Free-list entry at position `i`. -/
def Slab.entryAt (s : Slab) (i : Nat) : Int :=
  s.free_list.getD i 0

/-- `slab_create`: rejects zero sizes, aligns the block size to the
cache line, and initialises every block as free with the free list
holding `[0, 1, ..., num_blocks-1]`.  `mem` is the address returned by
`aligned_alloc(CACHE_LINE_SIZE, aligned_block_size * num_blocks)`. -/
def slab_create (mem : Nat) (block_size num_blocks : Nat) : Option Slab :=
  if block_size = 0 ∨ num_blocks = 0 then none
  else
    some { memory := mem
           metadata := (List.range num_blocks).map
             (fun i => { magic := FREE_MARKER, free := 1, block_index := i })
           block_size := align_size_to_cache_line block_size
           num_blocks := num_blocks
           free_count := num_blocks
           free_list := (List.range num_blocks).map Int.ofNat
           free_idx := num_blocks }

/-- `slab_alloc` on a non-null handle: pop the top of the free-index
stack and mark the popped block allocated.  In a sequential run the CAS
on `free_idx` succeeds immediately.  Note that on the (defensive)
out-of-range free-list entry path the source returns `NULL` after the
CAS has already lowered `free_idx`; the state change is kept. -/
def slab_alloc (s : Slab) : Option Nat × Slab :=
  if s.free_idx = 0 then (none, s)
  else
    let new_idx := s.free_idx - 1
    let s1 := { s with free_idx := new_idx }
    let block_idx := s.entryAt new_idx
    if block_idx < 0 ∨ s.num_blocks ≤ block_idx.toNat then (none, s1)
    else
      let bi := block_idx.toNat
      let ptr := s.memory + bi * s.block_size
      let meta := s.metaAt bi
      (some ptr,
        { s1 with
          metadata := s1.metadata.set bi { meta with magic := ALLOCATED_MARKER, free := 0 }
          free_count := s1.free_count - 1 })

/-- `slab_free` on a non-null handle and a pointer: validate the
pointer structurally, mark the block free, push its index, bump the
counters.  The source marks the metadata free *before* the free-list
overflow check, so that error path returns `-1` with the metadata
already changed; this is reproduced faithfully. -/
def slab_free (s : Slab) (ptr : Nat) : Int × Slab :=
  if ptr = 0 then (-1, s)
  else if ptr < s.memory then (-1, s)
  else
    let offset := ptr - s.memory
    if offset % s.block_size ≠ 0 then (-1, s)
    else
      let block_idx := offset / s.block_size
      if s.num_blocks ≤ block_idx then (-1, s)
      else
        let meta := s.metaAt block_idx
        if meta.magic ≠ ALLOCATED_MARKER then (-1, s)
        else if meta.free ≠ 0 then (-1, s)
        else
          let s1 := { s with
            metadata := s.metadata.set block_idx
              { meta with free := 1, magic := FREE_MARKER } }
          let new_idx := s1.free_idx + 1
          if s1.num_blocks < new_idx then (-1, s1)
          else
            (0, { s1 with
                  free_list := s1.free_list.set s1.free_idx (Int.ofNat block_idx)
                  free_idx := new_idx
                  free_count := s1.free_count + 1 })

/-- `slab_stats` on a non-null handle: `(used_blocks, free_blocks)`,
with `used = num_blocks - free_count` in `size_t` arithmetic (exact on
`Nat` under the invariant `free_count ≤ num_blocks`). -/
def slab_stats (s : Slab) : Nat × Nat :=
  (s.num_blocks - s.free_count, s.free_count)

/-- Null-handle wrapper for `slab_free` (`if (!alloc) return -1`). -/
def slab_free_h (h : Option Slab) (ptr : Nat) : Int × Option Slab :=
  match h with
  | none => (-1, none)
  | some s => let r := slab_free s ptr; (r.1, some r.2)

/-- Null-handle wrapper for `slab_stats`. -/
def slab_stats_h (h : Option Slab) : Option (Nat × Nat) :=
  h.map slab_stats

/-! ## Structural invariant of a slab

These are the quiescent-state invariants of §3 of the specification,
established by `slab_create` and preserved by `slab_alloc` and
`slab_free` in a sequential run. -/

/-- The slab invariant: array lengths match `num_blocks`; the stack
depth is in range and mirrored by `free_count`; the block size is a
positive multiple of the cache line; the data buffer base is a non-null
cache-line-aligned address; every active free-list entry names a valid
block that is marked free; every block marked allocated carries
`ALLOCATED_MARKER` and appears nowhere in the active free list; flags
are boolean; and the active free-list entries are pairwise distinct. -/
structure Slab.Inv (s : Slab) : Prop where
  hmlen : s.metadata.length = s.num_blocks
  hflen : s.free_list.length = s.num_blocks
  hidx : s.free_idx ≤ s.num_blocks
  hcount : s.free_count = s.free_idx
  hbs : 0 < s.block_size
  hbs64 : s.block_size % CACHE_LINE_SIZE = 0
  hmem : 0 < s.memory
  hmem64 : s.memory % CACHE_LINE_SIZE = 0
  hfree : ∀ i, i < s.free_idx → 0 ≤ s.entryAt i ∧ (s.entryAt i).toNat < s.num_blocks ∧
    (s.metaAt (s.entryAt i).toNat).free = 1 ∧ (s.metaAt (s.entryAt i).toNat).magic = FREE_MARKER
  hflag : ∀ b, b < s.num_blocks → (s.metaAt b).free = 0 ∨ (s.metaAt b).free = 1
  halloc : ∀ b, b < s.num_blocks → (s.metaAt b).free = 0 →
    (s.metaAt b).magic = ALLOCATED_MARKER ∧ ∀ i, i < s.free_idx → s.entryAt i ≠ Int.ofNat b
  hdist : ∀ i, i < s.free_idx → ∀ j, j < s.free_idx → i ≠ j → s.entryAt i ≠ s.entryAt j

instance (s : Slab) : Decidable s.Inv :=
  decidable_of_iff
    (s.metadata.length = s.num_blocks ∧
      s.free_list.length = s.num_blocks ∧
      s.free_idx ≤ s.num_blocks ∧
      s.free_count = s.free_idx ∧
      0 < s.block_size ∧
      s.block_size % CACHE_LINE_SIZE = 0 ∧
      0 < s.memory ∧
      s.memory % CACHE_LINE_SIZE = 0 ∧
      (∀ i, i < s.free_idx → 0 ≤ s.entryAt i ∧ (s.entryAt i).toNat < s.num_blocks ∧
        (s.metaAt (s.entryAt i).toNat).free = 1 ∧
        (s.metaAt (s.entryAt i).toNat).magic = FREE_MARKER) ∧
      (∀ b, b < s.num_blocks → (s.metaAt b).free = 0 ∨ (s.metaAt b).free = 1) ∧
      (∀ b, b < s.num_blocks → (s.metaAt b).free = 0 →
        (s.metaAt b).magic = ALLOCATED_MARKER ∧
        ∀ i, i < s.free_idx → s.entryAt i ≠ Int.ofNat b) ∧
      (∀ i, i < s.free_idx → ∀ j, j < s.free_idx → i ≠ j → s.entryAt i ≠ s.entryAt j))
    ⟨fun ⟨a, b, c, d, e, f, g, h, i, j, k, l⟩ => ⟨a, b, c, d, e, f, g, h, i, j, k, l⟩,
     fun ⟨a, b, c, d, e, f, g, h, i, j, k, l⟩ => ⟨a, b, c, d, e, f, g, h, i, j, k, l⟩⟩

/-- `getD` on a mapped range, in bounds. -/
theorem range_map_getD {α} (f : Nat → α) (n i : Nat) (d : α) (h : i < n) :
    ((List.range n).map f).getD i d = f i := by
  simp [List.getD_eq_getElem?_getD, List.getElem?_map, List.getElem?_range h]

/-- The round-up always lands on a multiple of the cache line. -/
theorem align_size_mod (sz : Nat) : align_size_to_cache_line sz % CACHE_LINE_SIZE = 0 := by
  unfold align_size_to_cache_line
  exact Nat.mul_mod_left _ _

/-- A freshly created slab satisfies the invariant, provided the data
buffer base is non-null and cache-line aligned (as `aligned_alloc`
guarantees on success) and the requested block size does not make the
cache-line round-up wrap to zero (always true for realistic sizes). -/
theorem slab_create_inv (mem bs n : Nat) (s : Slab)
    (hc : slab_create mem bs n = some s)
    (hbs : align_size_to_cache_line bs ≠ 0)
    (hmem : 0 < mem) (hmem64 : mem % CACHE_LINE_SIZE = 0) : s.Inv := by
  unfold slab_create at hc
  by_cases h0 : bs = 0 ∨ n = 0
  · rw [if_pos h0] at hc
    exact Option.noConfusion hc
  · rw [if_neg h0] at hc
    injection hc with hc
    subst hc
    refine ⟨by simp, by simp, le_refl _, rfl, Nat.pos_of_ne_zero hbs,
      align_size_mod bs, hmem, hmem64, ?_, ?_, ?_, ?_⟩
    · intro i hi
      simp only [Slab.entryAt, Slab.metaAt]
      rw [range_map_getD _ _ _ _ hi]
      have hti : (Int.ofNat i).toNat = i := rfl
      rw [hti, range_map_getD _ _ _ _ hi]
      exact ⟨Int.ofNat_nonneg i, hi, rfl, rfl⟩
    · intro b hb
      right
      simp only [Slab.metaAt]
      rw [range_map_getD _ _ _ _ hb]
    · intro b hb hfree
      exfalso
      simp only [Slab.metaAt] at hfree
      rw [range_map_getD _ _ _ _ hb] at hfree
      exact Nat.one_ne_zero hfree
    · intro i hi j hj hij
      simp only [Slab.entryAt]
      rw [range_map_getD _ _ _ _ hi, range_map_getD _ _ _ _ hj]
      exact fun he => hij (Int.ofNat_inj.mp he)

/-! ## Slab operation characterisations -/

/-- Address of block `b`: `data + index * aligned_block_size`. -/
def Slab.blockPtr (s : Slab) (b : Nat) : Nat :=
  s.memory + b * s.block_size

/-- `p` is the address of a block the slab currently considers
allocated. -/
def Slab.PtrAllocated (s : Slab) (p : Nat) : Prop :=
  ∃ b, b < s.num_blocks ∧ p = s.blockPtr b ∧ (s.metaAt b).free = 0

theorem getD_set_self {α} (l : List α) (i : Nat) (a d : α) (h : i < l.length) :
    (l.set i a).getD i d = a := by
  rw [List.getD_eq_getElem?_getD, List.getElem?_set_self (by simpa using h)]
  rfl

theorem getD_set_ne {α} (l : List α) {i j : Nat} (a d : α) (h : i ≠ j) :
    (l.set i a).getD j d = l.getD j d := by
  rw [List.getD_eq_getElem?_getD, List.getElem?_set_ne h, ← List.getD_eq_getElem?_getD]

theorem entry_toNat_inj {e1 e2 : Int} (h1 : 0 ≤ e1) (h2 : 0 ≤ e2)
    (h : e1.toNat = e2.toNat) : e1 = e2 := by
  rw [← Int.toNat_of_nonneg h1, ← Int.toNat_of_nonneg h2, h]

/-- Block addresses are distinct for distinct indices. -/
theorem blockPtr_inj (s : Slab) (hbs : 0 < s.block_size) {b c : Nat}
    (h : s.blockPtr b = s.blockPtr c) : b = c := by
  unfold Slab.blockPtr at h
  have := Nat.add_left_cancel h
  exact Nat.eq_of_mul_eq_mul_right hbs this

/-- `slab_alloc` on an exhausted slab fails and changes nothing. -/
theorem slab_alloc_eq_zero (s : Slab) (h : s.free_idx = 0) :
    slab_alloc s = (none, s) := by
  unfold slab_alloc
  rw [if_pos h]

/-- `slab_alloc` on a slab with a free block pops the top free-list
entry and marks that block allocated. -/
theorem slab_alloc_eq_pos (s : Slab) (h : s.Inv) (hpos : 0 < s.free_idx) :
    slab_alloc s =
      (some (s.blockPtr (s.entryAt (s.free_idx - 1)).toNat),
       { s with
         free_idx := s.free_idx - 1
         metadata := s.metadata.set (s.entryAt (s.free_idx - 1)).toNat
           { s.metaAt (s.entryAt (s.free_idx - 1)).toNat with
             magic := ALLOCATED_MARKER, free := 0 }
         free_count := s.free_count - 1 }) := by
  obtain ⟨hnn, hlt, hfree1, hmagic⟩ := h.hfree (s.free_idx - 1) (Nat.sub_lt hpos Nat.one_pos)
  unfold slab_alloc
  rw [if_neg (Nat.pos_iff_ne_zero.mp hpos)]
  rw [if_neg (by push_neg; exact ⟨not_lt.mp (fun hh => absurd hnn (not_le.mpr hh)), hlt⟩)]
  rfl

/-- If some block is allocated, the free stack is not full; this is the
pigeonhole argument showing the free-list overflow branch of
`slab_free` is unreachable under the invariant. -/
theorem free_idx_lt_of_allocated (s : Slab) (h : s.Inv) (b : Nat) (hb : b < s.num_blocks)
    (hf : (s.metaAt b).free = 0) : s.free_idx < s.num_blocks := by
  rcases Nat.lt_or_ge s.free_idx s.num_blocks with hlt | hge
  · exact hlt
  · exfalso
    have heq : s.free_idx = s.num_blocks := Nat.le_antisymm h.hidx hge
    have hmem : ∀ i : Fin s.num_blocks, (i : Nat) < s.free_idx := by
      intro i; rw [heq]; exact i.isLt
    let f : Fin s.num_blocks → Fin s.num_blocks :=
      fun i => ⟨(s.entryAt i).toNat, (h.hfree i (hmem i)).2.1⟩
    have hinj : Function.Injective f := by
      intro i j hij
      by_contra hne
      have hne' : (i : Nat) ≠ j := fun hh => hne (Fin.ext hh)
      refine h.hdist i (hmem i) j (hmem j) hne' ?_
      exact entry_toNat_inj (h.hfree i (hmem i)).1 (h.hfree j (hmem j)).1
        (congrArg Fin.val hij)
    obtain ⟨i, hi⟩ := (Finite.injective_iff_surjective.mp hinj) ⟨b, hb⟩
    have h1 : (s.metaAt (s.entryAt i).toNat).free = 1 := (h.hfree i (hmem i)).2.2.1
    rw [show ((s.entryAt i).toNat) = b from congrArg Fin.val hi, hf] at h1
    exact absurd h1 Nat.zero_ne_one

/-- The post-state of a successful `slab_free` of block `b`. -/
def freeSucc (s : Slab) (b : Nat) : Slab :=
  { s with
    metadata := s.metadata.set b { s.metaAt b with free := 1, magic := FREE_MARKER }
    free_list := s.free_list.set s.free_idx (Int.ofNat b)
    free_idx := s.free_idx + 1
    free_count := s.free_count + 1 }

/-- Under the invariant, `slab_free` either rejects the pointer leaving
the state unchanged, or the pointer is a currently-allocated block
address and the call succeeds with the `freeSucc` post-state.  (The
metadata-mutating overflow error path of the source is unreachable
under the invariant, by `free_idx_lt_of_allocated`.) -/
theorem slab_free_cases (s : Slab) (h : s.Inv) (ptr : Nat) :
    slab_free s ptr = (-1, s) ∨
    ∃ b, b < s.num_blocks ∧ ptr = s.blockPtr b ∧ (s.metaAt b).free = 0 ∧
      slab_free s ptr = (0, freeSucc s b) := by
  by_cases h1 : ptr = 0
  · left; simp [slab_free, h1]
  by_cases h2 : ptr < s.memory
  · left; simp [slab_free, h1, h2]
  by_cases h3 : (ptr - s.memory) % s.block_size = 0
  case neg => left; simp [slab_free, h1, h2, h3]
  by_cases h4 : s.num_blocks ≤ (ptr - s.memory) / s.block_size
  · left; simp [slab_free, h1, h2, h3, h4]
  by_cases h5 : (s.metaAt ((ptr - s.memory) / s.block_size)).magic = ALLOCATED_MARKER
  case neg => left; simp [slab_free, h1, h2, h3, h4, h5]
  by_cases h6 : (s.metaAt ((ptr - s.memory) / s.block_size)).free = 0
  case neg => left; simp [slab_free, h1, h2, h3, h4, h5, h6]
  right
  have hb : (ptr - s.memory) / s.block_size < s.num_blocks := not_le.mp h4
  have hofs : (ptr - s.memory) / s.block_size * s.block_size = ptr - s.memory :=
    Nat.div_mul_cancel (Nat.dvd_of_mod_eq_zero h3)
  have hptr : ptr = s.blockPtr ((ptr - s.memory) / s.block_size) := by
    unfold Slab.blockPtr
    rw [hofs]
    omega
  refine ⟨(ptr - s.memory) / s.block_size, hb, hptr, h6, ?_⟩
  have hov : ¬ (s.num_blocks < s.free_idx + 1) := by
    have := free_idx_lt_of_allocated s h _ hb h6
    omega
  simp [slab_free, h1, h2, h3, h4, h5, h6, hov, freeSucc]

/-- `slab_alloc` preserves the invariant. -/
theorem slab_alloc_inv (s : Slab) (h : s.Inv) : (slab_alloc s).2.Inv := by
  by_cases hpos : s.free_idx = 0
  · rw [slab_alloc_eq_zero s hpos]; exact h
  have hp : 0 < s.free_idx := Nat.pos_of_ne_zero hpos
  have htop : s.free_idx - 1 < s.free_idx := Nat.sub_lt hp Nat.one_pos
  rw [slab_alloc_eq_pos s h hp]
  obtain ⟨hnn, hblt, hbfree, hbmagic⟩ := h.hfree (s.free_idx - 1) htop
  set bi := (s.entryAt (s.free_idx - 1)).toNat with hbidef
  set M : BlockMeta := { s.metaAt bi with magic := ALLOCATED_MARKER, free := 0 } with hMdef
  set A : Slab :=
    { s with
      free_idx := s.free_idx - 1
      metadata := s.metadata.set bi M
      free_count := s.free_count - 1 } with hAdef
  show A.Inv
  have hbilen : bi < s.metadata.length := h.hmlen ▸ hblt
  have hAfi : A.free_idx = s.free_idx - 1 := rfl
  have hAentry : ∀ i, A.entryAt i = s.entryAt i := fun i => rfl
  have hAmeta_bi : A.metaAt bi = M := getD_set_self _ _ _ _ hbilen
  have hAmeta_ne : ∀ c, c ≠ bi → A.metaAt c = s.metaAt c := by
    intro c hc
    exact getD_set_ne _ _ _ (fun he => hc he.symm)
  -- distinct active entries have distinct block indices
  have hne_bi : ∀ i, i < s.free_idx - 1 → (s.entryAt i).toNat ≠ bi := by
    intro i hi he
    have hifi : i < s.free_idx := lt_trans hi htop
    have hine : i ≠ s.free_idx - 1 := Nat.ne_of_lt hi
    exact h.hdist i hifi (s.free_idx - 1) htop hine
      (entry_toNat_inj (h.hfree i hifi).1 hnn he)
  refine ⟨?_, ?_, ?_, ?_, ?_, ?_, ?_, ?_, ?_, ?_, ?_, ?_⟩
  · show (s.metadata.set bi M).length = s.num_blocks
    rw [List.length_set]; exact h.hmlen
  · exact h.hflen
  · exact le_trans (Nat.sub_le _ _) h.hidx
  · show s.free_count - 1 = s.free_idx - 1
    rw [h.hcount]
  · exact h.hbs
  · exact h.hbs64
  · exact h.hmem
  · exact h.hmem64
  · intro i hi
    rw [hAfi] at hi
    have hifi : i < s.free_idx := lt_trans hi htop
    obtain ⟨e_nn, e_lt, e_free, e_magic⟩ := h.hfree i hifi
    rw [hAentry i, hAmeta_ne _ (hne_bi i hi)]
    exact ⟨e_nn, e_lt, e_free, e_magic⟩
  · intro c hc
    by_cases hcb : c = bi
    · left; rw [hcb, hAmeta_bi]
    · rw [hAmeta_ne c hcb]; exact h.hflag c hc
  · intro c hc hcfree
    by_cases hcb : c = bi
    · rw [hcb, hAmeta_bi]
      refine ⟨rfl, ?_⟩
      intro i hi he
      rw [hAfi] at hi
      rw [hAentry i] at he
      have htn : (s.entryAt i).toNat = bi := by rw [he]; rfl
      exact hne_bi i hi htn
    · rw [hAmeta_ne c hcb] at hcfree
      obtain ⟨hm, hnotin⟩ := h.halloc c hc hcfree
      rw [hAmeta_ne c hcb]
      refine ⟨hm, ?_⟩
      intro i hi
      rw [hAfi] at hi
      rw [hAentry i]
      exact hnotin i (lt_trans hi htop)
  · intro i hi j hj hij
    rw [hAfi] at hi hj
    rw [hAentry i, hAentry j]
    exact h.hdist i (lt_trans hi htop) j (lt_trans hj htop) hij

/-- A successful free of an allocated block preserves the invariant. -/
theorem freeSucc_inv (s : Slab) (h : s.Inv) (b : Nat) (hb : b < s.num_blocks)
    (hf : (s.metaAt b).free = 0) : (freeSucc s b).Inv := by
  have hfi : s.free_idx < s.num_blocks := free_idx_lt_of_allocated s h b hb hf
  have hfilen : s.free_idx < s.free_list.length := h.hflen ▸ hfi
  have hblen : b < s.metadata.length := h.hmlen ▸ hb
  set Mf : BlockMeta := { s.metaAt b with free := 1, magic := FREE_MARKER } with hMdef
  have hSfi : (freeSucc s b).free_idx = s.free_idx + 1 := rfl
  have hE_top : (freeSucc s b).entryAt s.free_idx = Int.ofNat b :=
    getD_set_self _ _ _ _ hfilen
  have hE_ne : ∀ i, i ≠ s.free_idx → (freeSucc s b).entryAt i = s.entryAt i := by
    intro i hi
    exact getD_set_ne _ _ _ (fun he => hi he.symm)
  have hM_b : (freeSucc s b).metaAt b = Mf := getD_set_self _ _ _ _ hblen
  have hM_ne : ∀ c, c ≠ b → (freeSucc s b).metaAt c = s.metaAt c := by
    intro c hc
    exact getD_set_ne _ _ _ (fun he => hc he.symm)
  have hnotin : ∀ i, i < s.free_idx → s.entryAt i ≠ Int.ofNat b :=
    (h.halloc b hb hf).2
  refine ⟨?_, ?_, ?_, ?_, ?_, ?_, ?_, ?_, ?_, ?_, ?_, ?_⟩
  · show (s.metadata.set b Mf).length = s.num_blocks
    rw [List.length_set]; exact h.hmlen
  · show (s.free_list.set s.free_idx (Int.ofNat b)).length = s.num_blocks
    rw [List.length_set]; exact h.hflen
  · exact Nat.succ_le_of_lt hfi
  · show s.free_count + 1 = s.free_idx + 1
    rw [h.hcount]
  · exact h.hbs
  · exact h.hbs64
  · exact h.hmem
  · exact h.hmem64
  · intro i hi
    rw [hSfi] at hi
    by_cases hit : i = s.free_idx
    · rw [hit, hE_top]
      have htn : (Int.ofNat b).toNat = b := rfl
      rw [htn, hM_b]
      exact ⟨Int.ofNat_nonneg b, hb, rfl, rfl⟩
    · have hilt : i < s.free_idx := lt_of_le_of_ne (Nat.lt_succ_iff.mp hi) hit
      obtain ⟨e_nn, e_lt, e_free, e_magic⟩ := h.hfree i hilt
      rw [hE_ne i hit]
      have hne_b : (s.entryAt i).toNat ≠ b := by
        intro he
        have heq : s.entryAt i = Int.ofNat b := by
          rw [← Int.toNat_of_nonneg e_nn, he]
          rfl
        exact hnotin i hilt heq
      rw [hM_ne _ hne_b]
      exact ⟨e_nn, e_lt, e_free, e_magic⟩
  · intro c hc
    by_cases hcb : c = b
    · right; rw [hcb, hM_b]
    · rw [hM_ne c hcb]; exact h.hflag c hc
  · intro c hc hcfree
    by_cases hcb : c = b
    · exfalso
      rw [hcb, hM_b] at hcfree
      exact Nat.one_ne_zero hcfree
    · rw [hM_ne c hcb] at hcfree
      obtain ⟨hm, hni⟩ := h.halloc c hc hcfree
      rw [hM_ne c hcb]
      refine ⟨hm, ?_⟩
      intro i hi
      rw [hSfi] at hi
      by_cases hit : i = s.free_idx
      · rw [hit, hE_top]
        intro he
        exact hcb (Int.ofNat_inj.mp he).symm
      · have hilt : i < s.free_idx := lt_of_le_of_ne (Nat.lt_succ_iff.mp hi) hit
        rw [hE_ne i hit]
        exact hni i hilt
  · intro i hi j hj hij
    rw [hSfi] at hi hj
    by_cases hit : i = s.free_idx
    · have hjlt : j < s.free_idx := by
        rcases Nat.lt_succ_iff_lt_or_eq.mp hj with hh | hh
        · exact hh
        · exact absurd (hit.trans hh.symm) hij
      rw [hit, hE_top, hE_ne j (Nat.ne_of_lt hjlt)]
      exact fun he => hnotin j hjlt he.symm
    · have hilt : i < s.free_idx := lt_of_le_of_ne (Nat.lt_succ_iff.mp hi) hit
      by_cases hjt : j = s.free_idx
      · rw [hjt, hE_top, hE_ne i (Nat.ne_of_lt hilt)]
        exact hnotin i hilt
      · have hjlt : j < s.free_idx := lt_of_le_of_ne (Nat.lt_succ_iff.mp hj) hjt
        rw [hE_ne i hit, hE_ne j hjt]
        exact h.hdist i hilt j hjlt hij

/-- `slab_free` preserves the invariant. -/
theorem slab_free_inv (s : Slab) (h : s.Inv) (ptr : Nat) : (slab_free s ptr).2.Inv := by
  rcases slab_free_cases s h ptr with hcase | ⟨b, hb, _, hf, hcase⟩
  · rw [hcase]; exact h
  · rw [hcase]; exact freeSucc_inv s h b hb hf

/-! ## Allocation tracking across operation sequences -/

/-- A successful `slab_alloc` leaves the returned pointer allocated. -/
theorem slab_alloc_allocates (s : Slab) (h : s.Inv) (p : Nat) (s' : Slab)
    (ha : slab_alloc s = (some p, s')) : s'.PtrAllocated p := by
  by_cases hpos : s.free_idx = 0
  · rw [slab_alloc_eq_zero s hpos] at ha
    exact Option.noConfusion (congrArg Prod.fst ha)
  have hp : 0 < s.free_idx := Nat.pos_of_ne_zero hpos
  rw [slab_alloc_eq_pos s h hp] at ha
  obtain ⟨hnn, hblt, hbfree, hbmagic⟩ := h.hfree (s.free_idx - 1) (Nat.sub_lt hp Nat.one_pos)
  rw [Prod.mk.injEq] at ha
  obtain ⟨h1, h2⟩ := ha
  injection h1 with h1
  subst h2
  refine ⟨(s.entryAt (s.free_idx - 1)).toNat, hblt, h1.symm, ?_⟩
  have hbilen : (s.entryAt (s.free_idx - 1)).toNat < s.metadata.length := h.hmlen ▸ hblt
  have hset := getD_set_self s.metadata (s.entryAt (s.free_idx - 1)).toNat
    { s.metaAt (s.entryAt (s.free_idx - 1)).toNat with
      magic := ALLOCATED_MARKER, free := 0 } default hbilen
  exact congrArg BlockMeta.free hset

/-- `slab_alloc` never returns a pointer that is currently allocated. -/
theorem slab_alloc_not_allocated (s : Slab) (h : s.Inv) (p : Nat)
    (hp : s.PtrAllocated p) : (slab_alloc s).1 ≠ some p := by
  obtain ⟨b, hb, hpb, hbfree⟩ := hp
  by_cases hpos : s.free_idx = 0
  · rw [slab_alloc_eq_zero s hpos]
    exact fun he => Option.noConfusion he
  have hpp : 0 < s.free_idx := Nat.pos_of_ne_zero hpos
  rw [slab_alloc_eq_pos s h hpp]
  intro he
  injection he with he
  obtain ⟨hnn, hblt, htfree, htmagic⟩ := h.hfree (s.free_idx - 1) (Nat.sub_lt hpp Nat.one_pos)
  have hbeq : (s.entryAt (s.free_idx - 1)).toNat = b :=
    blockPtr_inj s h.hbs (by rw [← hpb, he])
  rw [hbeq, hbfree] at htfree
  exact Nat.zero_ne_one htfree

/-- `slab_alloc` keeps every already-allocated pointer allocated. -/
theorem slab_alloc_preserves_allocated (s : Slab) (h : s.Inv) (p : Nat)
    (hp : s.PtrAllocated p) : (slab_alloc s).2.PtrAllocated p := by
  obtain ⟨b, hb, hpb, hbfree⟩ := hp
  by_cases hpos : s.free_idx = 0
  · rw [slab_alloc_eq_zero s hpos]; exact ⟨b, hb, hpb, hbfree⟩
  have hpp : 0 < s.free_idx := Nat.pos_of_ne_zero hpos
  rw [slab_alloc_eq_pos s h hpp]
  obtain ⟨hnn, hblt, htfree, htmagic⟩ := h.hfree (s.free_idx - 1) (Nat.sub_lt hpp Nat.one_pos)
  have hne : b ≠ (s.entryAt (s.free_idx - 1)).toNat := by
    intro he
    rw [← he, hbfree] at htfree
    exact Nat.zero_ne_one htfree
  refine ⟨b, hb, hpb, ?_⟩
  show ((s.metadata.set (s.entryAt (s.free_idx - 1)).toNat _).getD b default).free = 0
  rw [getD_set_ne _ _ _ (fun he => hne he.symm)]
  exact hbfree

/-- `slab_free` keeps `p` allocated unless the call is a successful free
of `p` itself. -/
theorem slab_free_preserves_allocated (s : Slab) (h : s.Inv) (p q : Nat)
    (hp : s.PtrAllocated p) (hne : q ≠ p ∨ (slab_free s q).1 ≠ 0) :
    (slab_free s q).2.PtrAllocated p := by
  rcases slab_free_cases s h q with hcase | ⟨b, hb, hqb, hbfree, hcase⟩
  · rw [hcase]; exact hp
  · obtain ⟨c, hc, hpc, hcfree⟩ := hp
    rcases hne with hne | hres
    · have hcb : c ≠ b := by
        intro he
        exact hne (by rw [hqb, hpc, he])
      rw [hcase]
      refine ⟨c, hc, hpc, ?_⟩
      show ((s.metadata.set b _).getD c default).free = 0
      rw [getD_set_ne _ _ _ (fun he => hcb he.symm)]
      exact hcfree
    · exfalso
      rw [hcase] at hres
      exact hres rfl

/-- Operations on a slab, as issued by a caller. -/
inductive SlabOp where
  | alloc : SlabOp
  | free : Nat → SlabOp
  deriving Repr, DecidableEq

/-- State after one operation (the caller discards the return value). -/
def slabStep (s : Slab) (op : SlabOp) : Slab :=
  match op with
  | .alloc => (slab_alloc s).2
  | .free p => (slab_free s p).2

/-- State after a sequence of operations. -/
def slabRun (s : Slab) (ops : List SlabOp) : Slab :=
  ops.foldl slabStep s

theorem slabRun_nil (s : Slab) : slabRun s [] = s := rfl

theorem slabRun_cons (s : Slab) (op : SlabOp) (l : List SlabOp) :
    slabRun s (op :: l) = slabRun (slabStep s op) l := rfl

/-- Each step preserves the invariant. -/
theorem slabStep_inv (s : Slab) (h : s.Inv) (op : SlabOp) : (slabStep s op).Inv := by
  cases op with
  | alloc => exact slab_alloc_inv s h
  | free p => exact slab_free_inv s h p

/-- Whole runs preserve the invariant. -/
theorem slabRun_inv (l : List SlabOp) (s : Slab) (h : s.Inv) : (slabRun s l).Inv := by
  induction l generalizing s with
  | nil => exact h
  | cons op l' ih => exact ih (slabStep s op) (slabStep_inv s h op)

/-- If `p` is allocated and a later `slab_alloc` returns `p` again, the
run in between contains a successful `slab_free` of `p`. -/
theorem allocated_alloc_again_has_free (s : Slab) (h : s.Inv) (p : Nat)
    (hp : s.PtrAllocated p) :
    ∀ l, (slab_alloc (slabRun s l)).1 = some p →
      ∃ pre post, l = pre ++ SlabOp.free p :: post ∧
        (slab_free (slabRun s pre) p).1 = 0 := by
  intro l
  induction l generalizing s with
  | nil =>
    intro ha
    exact absurd ha (slab_alloc_not_allocated s h p hp)
  | cons op l' ih =>
    intro ha
    by_cases hop : op = SlabOp.free p ∧ (slab_free s p).1 = 0
    · exact ⟨[], l', by rw [hop.1]; rfl, hop.2⟩
    · have hstep : (slabStep s op).PtrAllocated p := by
        cases op with
        | alloc => exact slab_alloc_preserves_allocated s h p hp
        | free q =>
          apply slab_free_preserves_allocated s h p q hp
          by_cases hqp : q = p
          · right
            intro h0
            exact hop ⟨by rw [hqp], by rw [← hqp]; exact h0⟩
          · exact Or.inl hqp
      rw [slabRun_cons] at ha
      obtain ⟨pre, post, hl, hfr⟩ := ih (slabStep s op) (slabStep_inv s h op) hstep ha
      exact ⟨op :: pre, post, by rw [hl]; rfl, by rw [slabRun_cons]; exact hfr⟩

/-! ## Claim C9: the cache-line round-up -/

/-- C9: for every size `sz` (a `size_t`, so `sz < 2^64`),
`align_size_to_cache_line sz` returns the smallest multiple of `LINE`
that is at least `sz`, with the arithmetic taken modulo the machine
word. -/
theorem claim_C9 (sz : Nat) (hsz : sz < WORD) :
    ∃ m, m % CACHE_LINE_SIZE = 0 ∧ sz ≤ m ∧
      (∀ k, k % CACHE_LINE_SIZE = 0 → sz ≤ k → m ≤ k) ∧
      align_size_to_cache_line sz = m % WORD := by
  refine ⟨CACHE_LINE_SIZE * ((sz + (CACHE_LINE_SIZE - 1)) / CACHE_LINE_SIZE), ?_, ?_, ?_, ?_⟩
  · unfold CACHE_LINE_SIZE
    omega
  · unfold CACHE_LINE_SIZE
    omega
  · intro k hk hsk
    unfold CACHE_LINE_SIZE at *
    omega
  · unfold align_size_to_cache_line CACHE_LINE_SIZE WORD at *
    omega

/-- C9 witness at `sz = 100`: the round-up is 128. -/
theorem claim_C9_witness :
    ∃ m, m % CACHE_LINE_SIZE = 0 ∧ 100 ≤ m ∧
      (∀ k, k % CACHE_LINE_SIZE = 0 → 100 ≤ k → m ≤ k) ∧
      align_size_to_cache_line 100 = m % WORD :=
  claim_C9 100 (by norm_num [WORD])

/-! ## Claim C4: the initial state of a created slab -/

/-- `slab_free` at the address of an allocated block succeeds. -/
theorem slab_free_eq_success (s : Slab) (h : s.Inv) (b : Nat) (hb : b < s.num_blocks)
    (hf : (s.metaAt b).free = 0) :
    slab_free s (s.blockPtr b) = (0, freeSucc s b) := by
  have hmempos := h.hmem
  have hptr0 : ¬ (s.blockPtr b = 0) := by
    unfold Slab.blockPtr
    omega
  have hptrlt : ¬ (s.blockPtr b < s.memory) := by
    unfold Slab.blockPtr
    omega
  have hoff : s.blockPtr b - s.memory = b * s.block_size := by
    unfold Slab.blockPtr
    omega
  have hmod : b * s.block_size % s.block_size = 0 := Nat.mul_mod_left _ _
  have hdiv : b * s.block_size / s.block_size = b := Nat.mul_div_left b h.hbs
  have hmagic := (h.halloc b hb hf).1
  have hnle : ¬ (s.num_blocks ≤ b) := not_le.mpr hb
  have hov : ¬ (s.num_blocks < s.free_idx + 1) := by
    have := free_idx_lt_of_allocated s h b hb hf
    omega
  simp [slab_free, hoff, hmod, hdiv, hptr0, hptrlt, hmagic, hf, hnle, hov, freeSucc]

/-- C8: from any invariant state with at least one free block,
`slab_alloc` succeeds with some pointer `p`, and `slab_free` of `p`
succeeds and restores the `slab_stats` output to its value before the
pair. -/
theorem claim_C8 (s : Slab) (hinv : s.Inv) (hpos : 0 < s.free_idx) (p : Nat)
    (ha : (slab_alloc s).1 = some p) :
    (slab_free (slab_alloc s).2 p).1 = 0 ∧
    slab_stats (slab_free (slab_alloc s).2 p).2 = slab_stats s := by
  have hAinv : (slab_alloc s).2.Inv := slab_alloc_inv s hinv
  obtain ⟨hnn, hblt, hbfree, hbmagic⟩ :=
    hinv.hfree (s.free_idx - 1) (Nat.sub_lt hpos Nat.one_pos)
  set bi := (s.entryAt (s.free_idx - 1)).toNat with hbidef
  have hbilen : bi < s.metadata.length := hinv.hmlen ▸ hblt
  have e := slab_alloc_eq_pos s hinv hpos
  have hp : p = s.blockPtr bi := by
    have ha2 := ha
    rw [e] at ha2
    have hsome : some (s.blockPtr bi) = some p := ha2
    injection hsome with hx
    exact hx.symm
  have hA2 : (slab_alloc s).2 =
      { s with
        free_idx := s.free_idx - 1
        metadata := s.metadata.set bi
          { s.metaAt bi with magic := ALLOCATED_MARKER, free := 0 }
        free_count := s.free_count - 1 } := by
    rw [e]
  have hbn : bi < (slab_alloc s).2.num_blocks := by rw [hA2]; exact hblt
  have hfA : ((slab_alloc s).2.metaAt bi).free = 0 := by
    rw [hA2]
    show ((s.metadata.set bi _).getD bi default).free = 0
    rw [getD_set_self _ _ _ _ hbilen]
  have key := slab_free_eq_success (slab_alloc s).2 hAinv bi hbn hfA
  have hbp : (slab_alloc s).2.blockPtr bi = s.blockPtr bi := by
    rw [hA2]
    rfl
  rw [hp, ← hbp, key]
  refine ⟨rfl, ?_⟩
  have hcnt := hinv.hcount
  have hfi : s.free_idx ≤ s.num_blocks := hinv.hidx
  rw [hA2]
  simp only [slab_stats, freeSucc, Prod.mk.injEq]
  constructor
  · omega
  · omega

/-! ## Claim C2: `slab_free` error conditions and the stats frame -/

/-- The error condition of the specification for `free(ptr)`: null
handle, null pointer, pointer outside the data buffer, offset not on
the block grid, derived index out of range, wrong magic, or block
already marked free. -/
def SlabFreeError : Option Slab → Nat → Prop
  | none, _ => True
  | some s, ptr =>
      ptr = 0 ∨ ptr < s.memory ∨ s.memory + s.num_blocks * s.block_size ≤ ptr ∨
      (ptr - s.memory) % s.block_size ≠ 0 ∨
      s.num_blocks ≤ (ptr - s.memory) / s.block_size ∨
      (s.metaAt ((ptr - s.memory) / s.block_size)).magic ≠ ALLOCATED_MARKER ∨
      (s.metaAt ((ptr - s.memory) / s.block_size)).free = 1

instance : ∀ (h : Option Slab) (ptr : Nat), Decidable (SlabFreeError h ptr)
  | none, _ => isTrue trivial
  | some _, _ => inferInstanceAs (Decidable (_ ∨ _))

/-- The invariant lifted to a nullable handle. -/
def OptInv : Option Slab → Prop
  | none => True
  | some s => s.Inv

instance : ∀ (h : Option Slab), Decidable (OptInv h)
  | none => isTrue trivial
  | some s => inferInstanceAs (Decidable s.Inv)

/-- On any nonzero return, `slab_free` leaves the `slab_stats` counts
unchanged (no invariant needed: no error path touches `free_count` or
`num_blocks`). -/
theorem slab_free_frame (s : Slab) (ptr : Nat) (hne : (slab_free s ptr).1 ≠ 0) :
    slab_stats (slab_free s ptr).2 = slab_stats s := by
  by_cases h1 : ptr = 0
  · simp [slab_free, h1]
  by_cases h2 : ptr < s.memory
  · simp [slab_free, h1, h2]
  by_cases h3 : (ptr - s.memory) % s.block_size = 0
  case neg => simp [slab_free, h1, h2, h3]
  by_cases h4 : s.num_blocks ≤ (ptr - s.memory) / s.block_size
  · simp [slab_free, h1, h2, h3, h4]
  by_cases h5 : (s.metaAt ((ptr - s.memory) / s.block_size)).magic = ALLOCATED_MARKER
  case neg => simp [slab_free, h1, h2, h3, h4, h5]
  by_cases h6 : (s.metaAt ((ptr - s.memory) / s.block_size)).free = 0
  case neg => simp [slab_free, h1, h2, h3, h4, h5, h6]
  by_cases h7 : s.num_blocks < s.free_idx + 1
  · simp [slab_free, slab_stats, h1, h2, h3, h4, h5, h6, h7]
  · exfalso
    apply hne
    simp [slab_free, h1, h2, h3, h4, h5, h6, h7]

/-- Under the invariant, `slab_free` returns nonzero exactly on the
specification's error conditions. -/
theorem slab_free_error_iff (s : Slab) (h : s.Inv) (ptr : Nat) :
    (slab_free s ptr).1 ≠ 0 ↔ SlabFreeError (some s) ptr := by
  show _ ↔ (ptr = 0 ∨ _)
  by_cases h1 : ptr = 0
  · simp [slab_free, h1]
  by_cases h2 : ptr < s.memory
  · simp [slab_free, h1, h2]
  by_cases h3 : (ptr - s.memory) % s.block_size = 0
  case neg => simp [slab_free, h1, h2, h3]
  by_cases h4 : s.num_blocks ≤ (ptr - s.memory) / s.block_size
  · simp [slab_free, h1, h2, h3, h4]
  by_cases h5 : (s.metaAt ((ptr - s.memory) / s.block_size)).magic = ALLOCATED_MARKER
  case neg => simp [slab_free, h1, h2, h3, h4, h5]
  by_cases h6 : (s.metaAt ((ptr - s.memory) / s.block_size)).free = 0
  case neg =>
    -- the flag is boolean under the invariant, so nonzero means 1
    have hflag := h.hflag ((ptr - s.memory) / s.block_size) (not_le.mp h4)
    have h6' : (s.metaAt ((ptr - s.memory) / s.block_size)).free = 1 := by
      rcases hflag with h0 | h0
      · exact absurd h0 h6
      · exact h0
    simp [slab_free, h1, h2, h3, h4, h5, h6, h6']
  -- all structural checks pass: the call succeeds and no spec error holds
  have hov : ¬ (s.num_blocks < s.free_idx + 1) := by
    have := free_idx_lt_of_allocated s h _ (not_le.mp h4) h6
    omega
  have hinside : ¬ (s.memory + s.num_blocks * s.block_size ≤ ptr) := by
    have hge : s.memory ≤ ptr := not_lt.mp h2
    have heq : (ptr - s.memory) / s.block_size * s.block_size = ptr - s.memory :=
      Nat.div_mul_cancel (Nat.dvd_of_mod_eq_zero h3)
    have hlt : (ptr - s.memory) / s.block_size < s.num_blocks := not_le.mp h4
    have hmul : (ptr - s.memory) / s.block_size * s.block_size <
        s.num_blocks * s.block_size :=
      (Nat.mul_lt_mul_right h.hbs).mpr hlt
    omega
  simp [slab_free, h1, h2, h3, h4, h5, h6, hov, hinside]

/-- C2: for every (possibly null) slab handle satisfying the invariant
and every pointer, `slab_free` returns nonzero exactly when one of the
specification's error conditions holds, and on any nonzero return the
`slab_stats` counts are unchanged. -/
theorem claim_C2 (h : Option Slab) (ptr : Nat) (hinv : OptInv h) :
    (((slab_free_h h ptr).1 ≠ 0) ↔ SlabFreeError h ptr) ∧
    ((slab_free_h h ptr).1 ≠ 0 → slab_stats_h (slab_free_h h ptr).2 = slab_stats_h h) := by
  cases h with
  | none =>
    constructor
    · constructor
      · intro _; trivial
      · intro _; simp [slab_free_h]
    · intro _; rfl
  | some s =>
    constructor
    · show ((slab_free s ptr).1 ≠ 0) ↔ _
      exact slab_free_error_iff s hinv ptr
    · intro hne
      show slab_stats_h (some (slab_free s ptr).2) = _
      have := slab_free_frame s ptr hne
      simp [slab_stats_h, this]

/-- C2 witness: a fresh two-block slab rejects the misaligned pointer
`67` and reports unchanged stats. -/
theorem claim_C2_witness :
    (((slab_free_h (slab_create 64 64 2) 67).1 ≠ 0) ↔ SlabFreeError (slab_create 64 64 2) 67) ∧
    ((slab_free_h (slab_create 64 64 2) 67).1 ≠ 0 →
      slab_stats_h (slab_free_h (slab_create 64 64 2) 67).2 =
        slab_stats_h (slab_create 64 64 2)) :=
  claim_C2 (slab_create 64 64 2) 67 (by decide)

/-! ## Claim C3: no double allocation without an intervening free -/

/-- C3 (amended): for every slab created by `slab_create` from a
non-null cache-line-aligned buffer, with a block size whose cache-line
round-up is nonzero, and for every operation sequence: if `slab_alloc`
returns `p` and, after further operations `l2`, another `slab_alloc`
returns `p` again, then `l2` contains a successful `slab_free` of `p`
between the two allocations. -/
theorem claim_C3_amended (mem bs n : Nat) (s0 : Slab)
    (hc : slab_create mem bs n = some s0)
    (hbs : align_size_to_cache_line bs ≠ 0)
    (hmem : 0 < mem) (hmem64 : mem % CACHE_LINE_SIZE = 0)
    (l1 l2 : List SlabOp) (p : Nat)
    (h1 : (slab_alloc (slabRun s0 l1)).1 = some p)
    (h2 : (slab_alloc (slabRun (slab_alloc (slabRun s0 l1)).2 l2)).1 = some p) :
    ∃ pre post, l2 = pre ++ SlabOp.free p :: post ∧
      (slab_free (slabRun (slab_alloc (slabRun s0 l1)).2 pre) p).1 = 0 := by
  have hinv0 := slab_create_inv mem bs n s0 hc hbs hmem hmem64
  have hinv1 := slabRun_inv l1 s0 hinv0
  have halloc : (slab_alloc (slabRun s0 l1)).2.PtrAllocated p := by
    apply slab_alloc_allocates (slabRun s0 l1) hinv1 p
    rw [← h1]
  have hinv2 : (slab_alloc (slabRun s0 l1)).2.Inv := slab_alloc_inv _ hinv1
  exact allocated_alloc_again_has_free _ hinv2 p halloc l2 h2

/-- A one-block slab as `slab_create 64 64 1` produces it. -/
def slabOne : Slab :=
  { memory := 64
    metadata := [{ magic := FREE_MARKER, free := 1, block_index := 0 }]
    block_size := 64
    num_blocks := 1
    free_count := 1
    free_list := [Int.ofNat 0]
    free_idx := 1 }

/-- C3 witness: on a one-block slab, alloc, free, alloc re-returns the
block, and the run in between indeed decomposes around the successful
free. -/
theorem claim_C3_witness :
    ∃ pre post, [SlabOp.free 64] = pre ++ SlabOp.free 64 :: post ∧
      (slab_free (slabRun (slab_alloc (slabRun slabOne [])).2 pre) 64).1 = 0 :=
  claim_C3_amended 64 64 1 slabOne (by decide) (by decide) (by decide) (by decide)
    [] [SlabOp.free 64] 64 (by decide) (by decide)

/-- The slab `slab_create 64 (2^64 - 1) 2` produces: the `SIZE_MAX`
block size rounds (with `size_t` wrap-around) to an aligned block size
of zero. -/
def slabWrap : Slab :=
  { memory := 64
    metadata := [{ magic := FREE_MARKER, free := 1, block_index := 0 },
                 { magic := FREE_MARKER, free := 1, block_index := 1 }]
    block_size := 0
    num_blocks := 2
    free_count := 2
    free_list := [Int.ofNat 0, Int.ofNat 1]
    free_idx := 2 }

/-- C3 counterexample for the claim as stated: `slab_create` with
`block_size = SIZE_MAX` (whose cache-line round-up wraps to 0) succeeds,
and two consecutive `slab_alloc` calls — with no `slab_free` in between
— both return the same non-null pointer `64`, because every block's
address collapses to the buffer base. -/
theorem claim_C3_counterexample :
    slab_create 64 (2 ^ 64 - 1) 2 = some slabWrap ∧
    (slab_alloc slabWrap).1 = some 64 ∧
    (slab_alloc (slab_alloc slabWrap).2).1 = some 64 ∧
    (64 : Nat) ≠ 0 := by decide

/-- A fresh two-block slab as `slab_create 64 64 2` produces it. -/
def slabTwo : Slab :=
  { memory := 64
    metadata := [{ magic := FREE_MARKER, free := 1, block_index := 0 },
                 { magic := FREE_MARKER, free := 1, block_index := 1 }]
    block_size := 64
    num_blocks := 2
    free_count := 2
    free_list := [Int.ofNat 0, Int.ofNat 1]
    free_idx := 2 }

/-- C8 witness: on the fresh two-block slab, alloc returns the block at
`128`; freeing it succeeds and restores the stats. -/
theorem claim_C8_witness :
    (slab_free (slab_alloc slabTwo).2 128).1 = 0 ∧
    slab_stats (slab_free (slab_alloc slabTwo).2 128).2 = slab_stats slabTwo :=
  claim_C8 slabTwo (by decide) (by decide) 128 (by decide)

/-! ## Claim C5: the arena bump-and-reset scenario -/

/-- C5: for an arena built over a non-null buffer with
`arena_create(192)`: two `arena_alloc(64)` calls return the distinct
non-null pointers `p1 = mem` and `p2 = mem + 64 = p1 + 64`; a third
`arena_alloc(65)` returns null; `arena_reset` returns the arena to the
initial state, after which `arena_alloc(64)` returns `p1` again and
`arena_stats` reports `used = 0`. -/
theorem claim_C5 (mem : Nat) (hmem : mem ≠ 0) :
    arena_create mem 192 = some { memory := mem, capacity := 192, offset := 0 } ∧
    arena_alloc { memory := mem, capacity := 192, offset := 0 } 64 =
      (some mem, { memory := mem, capacity := 192, offset := 64 }) ∧
    arena_alloc { memory := mem, capacity := 192, offset := 64 } 64 =
      (some (mem + 64), { memory := mem, capacity := 192, offset := 128 }) ∧
    mem ≠ 0 ∧ mem + 64 ≠ 0 ∧ mem ≠ mem + 64 ∧
    arena_alloc { memory := mem, capacity := 192, offset := 128 } 65 =
      (none, { memory := mem, capacity := 192, offset := 128 }) ∧
    arena_reset { memory := mem, capacity := 192, offset := 128 } =
      { memory := mem, capacity := 192, offset := 0 } ∧
    (arena_stats { memory := mem, capacity := 192, offset := 0 }).1 = 0 := by
  refine ⟨?_, ?_, ?_, hmem, by omega, by omega, ?_, ?_, ?_⟩
  · norm_num [arena_create, align_size_to_cache_line, CACHE_LINE_SIZE, WORD]
  · norm_num [arena_alloc, align_size_to_cache_line, CACHE_LINE_SIZE, WORD]
  · norm_num [arena_alloc, align_size_to_cache_line, CACHE_LINE_SIZE, WORD]
  · norm_num [arena_alloc, align_size_to_cache_line, CACHE_LINE_SIZE, WORD]
  · rfl
  · rfl

/-- C5 witness at `mem = 64`. -/
theorem claim_C5_witness :
    arena_create 64 192 = some { memory := 64, capacity := 192, offset := 0 } ∧
    arena_alloc { memory := 64, capacity := 192, offset := 0 } 64 =
      (some 64, { memory := 64, capacity := 192, offset := 64 }) ∧
    arena_alloc { memory := 64, capacity := 192, offset := 64 } 64 =
      (some (64 + 64), { memory := 64, capacity := 192, offset := 128 }) ∧
    (64 : Nat) ≠ 0 ∧ (64 : Nat) + 64 ≠ 0 ∧ (64 : Nat) ≠ 64 + 64 ∧
    arena_alloc { memory := 64, capacity := 192, offset := 128 } 65 =
      (none, { memory := 64, capacity := 192, offset := 128 }) ∧
    arena_reset { memory := 64, capacity := 192, offset := 128 } =
      { memory := 64, capacity := 192, offset := 0 } ∧
    (arena_stats { memory := 64, capacity := 192, offset := 0 }).1 = 0 :=
  claim_C5 64 (by norm_num)

/-! ## Claim C7: exhausted arena allocation is a no-op -/

/-- C7 (amended): for every arena and every size whose cache-line
round-up exceeds the remaining capacity, **provided the `size_t`
offset bump does not wrap** (`offset + rounded < 2^64`), `arena_alloc`
returns null and leaves the arena — hence the `used` statistic —
unchanged. -/
theorem claim_C7_amended (a : Arena) (size : Nat)
    (hexceed : a.capacity - a.offset < align_size_to_cache_line size)
    (hnowrap : a.offset + align_size_to_cache_line size < WORD) :
    arena_alloc a size = (none, a) := by
  by_cases h0 : size = 0
  · unfold arena_alloc
    rw [if_pos h0]
  · unfold arena_alloc
    rw [if_neg h0]
    have hmod : (a.offset + align_size_to_cache_line size) % WORD =
        a.offset + align_size_to_cache_line size := Nat.mod_eq_of_lt hnowrap
    rw [if_pos (by rw [hmod]; omega)]

/-- C7 witness: arena at offset 64 of 192, request 129 (rounds to 192 >
128 remaining): null, arena unchanged. -/
theorem claim_C7_witness :
    arena_alloc { memory := 64, capacity := 192, offset := 64 } 129 =
      (none, { memory := 64, capacity := 192, offset := 64 }) :=
  claim_C7_amended { memory := 64, capacity := 192, offset := 64 } 129
    (by decide) (by decide)

/-- C7 counterexample for the claim as stated: on the live arena
reached by `arena_create(192)` then `arena_alloc(64)`, a request of
`2^64 - 64` bytes rounds to `2^64 - 64`, far above the remaining 128 —
yet the `size_t` bump wraps to 0, the capacity guard passes, and
`arena_alloc` returns the non-null pointer `128` and rewinds the
offset to 0. -/
theorem claim_C7_counterexample :
    arena_create 64 192 = some { memory := 64, capacity := 192, offset := 0 } ∧
    arena_alloc { memory := 64, capacity := 192, offset := 0 } 64 =
      (some 64, { memory := 64, capacity := 192, offset := 64 }) ∧
    (192 : Nat) - 64 < align_size_to_cache_line (2 ^ 64 - 64) ∧
    (arena_alloc { memory := 64, capacity := 192, offset := 64 } (2 ^ 64 - 64)).1 = some 128 ∧
    (arena_alloc { memory := 64, capacity := 192, offset := 64 } (2 ^ 64 - 64)).2.offset = 0 := by
  decide

/-! ## Pool engine (first translation unit of `src/pool.c`)

The thread-local cache is passed explicitly: the `Option ThreadCache`
argument stands for the result of `get_thread_local_cache`, with `none`
modelling a thread whose TLS cache structure could not be allocated.
Each operation returns its result together with the updated pool and
cache. -/

/-- `thread_local_cache_t`. -/
structure ThreadCache where
  local_cache : List Nat
  cache_size : Nat
  cache_count : Nat
  deriving Repr, DecidableEq

/-- `mempool_t`. -/
structure Mempool where
  global_slab : Slab
  block_size : Nat
  blocks_per_thread : Nat
  initialized : Nat
  deriving Repr, DecidableEq

/-- A freshly created thread cache: `blocks_per_thread` slots (malloc
contents modelled as zeros) and count 0. -/
def freshCache (blocks_per_thread : Nat) : ThreadCache :=
  { local_cache := List.replicate blocks_per_thread 0
    cache_size := blocks_per_thread
    cache_count := 0 }

/-- `pool_create`: rejects any zero argument and builds the global slab
from `(block_size, total_blocks)`. -/
def pool_create (mem : Nat) (block_size blocks_per_thread total_blocks : Nat) :
    Option Mempool :=
  if block_size = 0 ∨ blocks_per_thread = 0 ∨ total_blocks = 0 then none
  else
    match slab_create mem block_size total_blocks with
    | none => none
    | some g =>
        some { global_slab := g, block_size := block_size,
               blocks_per_thread := blocks_per_thread, initialized := 1 }

/-- `pool_alloc`: null/uninitialised pool gives null; an unobtainable
thread cache gives null (the source returns `NULL` at line 86 without
consulting the slab); a non-empty cache serves its last slot; otherwise
the global slab is consulted.  In a sequential run the cache-count CAS
succeeds immediately. -/
def pool_alloc (h : Option Mempool) (cache : Option ThreadCache) :
    Option Nat × Option Mempool × Option ThreadCache :=
  match h with
  | none => (none, none, cache)
  | some p =>
    if p.initialized = 0 then (none, some p, cache)
    else
      match cache with
      | none => (none, some p, none)
      | some c =>
        if 0 < c.cache_count then
          (some (c.local_cache.getD (c.cache_count - 1) 0), some p,
           some { c with cache_count := c.cache_count - 1 })
        else
          let r := slab_alloc p.global_slab
          (r.1, some { p with global_slab := r.2 }, some c)

/-- `pool_free`: null pool, null pointer or uninitialised pool give
`-1`; an unobtainable thread cache delegates to `slab_free`; a cache
with room stores the pointer (no validation); a full cache delegates to
`slab_free`. -/
def pool_free (h : Option Mempool) (cache : Option ThreadCache) (ptr : Nat) :
    Int × Option Mempool × Option ThreadCache :=
  match h with
  | none => (-1, none, cache)
  | some p =>
    if ptr = 0 then (-1, some p, cache)
    else if p.initialized = 0 then (-1, some p, cache)
    else
      match cache with
      | none =>
          let r := slab_free p.global_slab ptr
          (r.1, some { p with global_slab := r.2 }, none)
      | some c =>
        if c.cache_count < p.blocks_per_thread then
          (0, some p,
           some { c with local_cache := c.local_cache.set c.cache_count ptr,
                         cache_count := c.cache_count + 1 })
        else
          let r := slab_free p.global_slab ptr
          (r.1, some { p with global_slab := r.2 }, some c)

/-- The pool over the one-block slab, as `pool_create 64 64 1 1`
produces it. -/
def poolOne : Mempool :=
  { global_slab := slabOne, block_size := 64, blocks_per_thread := 1, initialized := 1 }

/-! ## Claim C1: degradation when the thread cache is unusable -/

/-- C1, evaluated at the failing input.  With the thread cache
unobtainable (`none`) over a pool whose slab still has a free block:
`pool_free` delegates to `slab_free` exactly as the claim states (here
freeing the allocated block at 64 succeeds through the delegation), but
`pool_alloc` returns null **without** calling `slab_alloc`, although
`slab_alloc` on the pool's slab would succeed — contradicting the
claim's (and the spec's) alloc half. -/
theorem claim_C1_code_bug :
    pool_create 64 64 1 1 = some poolOne ∧
    (pool_alloc (some poolOne) none).1 = none ∧
    (pool_alloc (some poolOne) none).2.1 = some poolOne ∧
    (slab_alloc poolOne.global_slab).1 = some 64 ∧
    (pool_free (some { poolOne with global_slab := (slab_alloc poolOne.global_slab).2 })
      none 64).1 = 0 := by decide

/-! ## Claim C10: `pool_free` into a non-full cache performs no validation -/

/-- C10: whenever the pool is live and the thread's cache has an empty
slot, `pool_free` accepts **any** non-null pointer — with no check that
it was ever issued by the pool — returning 0, leaving the pool (and its
slab) untouched, and storing the pointer in the cache; the next
`pool_alloc` on the same thread returns that very pointer. -/
theorem claim_C10 (p : Mempool) (c : ThreadCache) (ptr : Nat)
    (hinit : p.initialized ≠ 0) (hptr : ptr ≠ 0)
    (hroom : c.cache_count < p.blocks_per_thread)
    (hwf : c.cache_count < c.local_cache.length) :
    (pool_free (some p) (some c) ptr).1 = 0 ∧
    (pool_free (some p) (some c) ptr).2.1 = some p ∧
    (pool_alloc (pool_free (some p) (some c) ptr).2.1
      (pool_free (some p) (some c) ptr).2.2).1 = some ptr := by
  have hinit' : ¬ p.initialized = 0 := hinit
  refine ⟨?_, ?_, ?_⟩
  · simp [pool_free, hptr, hinit', hroom]
  · simp [pool_free, hptr, hinit', hroom]
  · simp only [pool_free, hptr, hinit', hroom, if_true, if_false, if_neg, if_pos,
      ite_true, ite_false]
    simp [pool_alloc, hinit', getD_set_self _ _ _ _ hwf]
    rw [List.getElem?_set_self (by simpa using hwf)]
    rfl

/-- C10 witness: the fresh one-slot cache accepts the bogus pointer 999
and the next `pool_alloc` returns it. -/
theorem claim_C10_witness :
    (pool_free (some poolOne) (some (freshCache 1)) 999).1 = 0 ∧
    (pool_free (some poolOne) (some (freshCache 1)) 999).2.1 = some poolOne ∧
    (pool_alloc (pool_free (some poolOne) (some (freshCache 1)) 999).2.1
      (pool_free (some poolOne) (some (freshCache 1)) 999).2.2).1 = some 999 :=
  claim_C10 poolOne (freshCache 1) 999 (by decide) (by decide) (by decide) (by decide)

/-! ## Claim C6: cache-line alignment of returned pointers -/

/-- Every pointer `slab_alloc` returns from an invariant slab is
cache-line aligned. -/
theorem slab_alloc_aligned (s : Slab) (h : s.Inv) (p : Nat) (s' : Slab)
    (ha : slab_alloc s = (some p, s')) : p % CACHE_LINE_SIZE = 0 := by
  by_cases hpos : s.free_idx = 0
  · rw [slab_alloc_eq_zero s hpos] at ha
    exact Option.noConfusion (congrArg Prod.fst ha)
  have hp : 0 < s.free_idx := Nat.pos_of_ne_zero hpos
  rw [slab_alloc_eq_pos s h hp] at ha
  rw [Prod.mk.injEq] at ha
  injection ha.1 with h1
  rw [← h1]
  unfold Slab.blockPtr
  have hdvd : CACHE_LINE_SIZE ∣ s.memory + (s.entryAt (s.free_idx - 1)).toNat * s.block_size :=
    Nat.dvd_add (Nat.dvd_of_mod_eq_zero h.hmem64)
      (Dvd.dvd.mul_left (Nat.dvd_of_mod_eq_zero h.hbs64) _)
  obtain ⟨k, hk⟩ := hdvd
  rw [hk]
  exact Nat.mul_mod_right _ _

/-- The arena's offset stays a multiple of the cache line across
`arena_alloc`. -/
theorem arena_alloc_offset_aligned (a : Arena) (ho : a.offset % CACHE_LINE_SIZE = 0)
    (sz : Nat) : (arena_alloc a sz).2.offset % CACHE_LINE_SIZE = 0 := by
  unfold arena_alloc
  by_cases h0 : sz = 0
  · rw [if_pos h0]; exact ho
  rw [if_neg h0]
  by_cases hcap : a.capacity < (a.offset + align_size_to_cache_line sz) % WORD
  · rw [if_pos hcap]; exact ho
  · rw [if_neg hcap]
    show (a.offset + align_size_to_cache_line sz) % WORD % CACHE_LINE_SIZE = 0
    have hdvd : CACHE_LINE_SIZE ∣ (a.offset + align_size_to_cache_line sz) % WORD := by
      rw [Nat.dvd_mod_iff (by norm_num [CACHE_LINE_SIZE, WORD])]
      exact Nat.dvd_add (Nat.dvd_of_mod_eq_zero ho)
        (Nat.dvd_of_mod_eq_zero (align_size_mod sz))
    obtain ⟨k, hk⟩ := hdvd
    rw [hk]
    exact Nat.mul_mod_right _ _

/-- Every pointer `arena_alloc` returns from an aligned arena state is
cache-line aligned. -/
theorem arena_alloc_aligned (a : Arena) (hm : a.memory % CACHE_LINE_SIZE = 0)
    (ho : a.offset % CACHE_LINE_SIZE = 0) (sz q : Nat) (a' : Arena)
    (ha : arena_alloc a sz = (some q, a')) : q % CACHE_LINE_SIZE = 0 := by
  unfold arena_alloc at ha
  by_cases h0 : sz = 0
  · rw [if_pos h0] at ha
    exact Option.noConfusion (congrArg Prod.fst ha)
  rw [if_neg h0] at ha
  by_cases hcap : a.capacity < (a.offset + align_size_to_cache_line sz) % WORD
  · rw [if_pos hcap] at ha
    exact Option.noConfusion (congrArg Prod.fst ha)
  · rw [if_neg hcap] at ha
    rw [Prod.mk.injEq] at ha
    injection ha.1 with h1
    rw [← h1]
    unfold CACHE_LINE_SIZE at hm ho ⊢
    omega

/-- Every pointer `pool_alloc` returns is cache-line aligned, provided
the slab satisfies the invariant and every pointer parked in the
thread's cache is itself aligned. -/
theorem pool_alloc_aligned (p : Mempool) (c : ThreadCache)
    (hinv : p.global_slab.Inv)
    (hcache : ∀ i, i < c.cache_count → c.local_cache.getD i 0 % CACHE_LINE_SIZE = 0)
    (q : Nat) (ha : (pool_alloc (some p) (some c)).1 = some q) :
    q % CACHE_LINE_SIZE = 0 := by
  simp only [pool_alloc] at ha
  by_cases hinit : p.initialized = 0
  · rw [if_pos hinit] at ha
    exact Option.noConfusion ha
  rw [if_neg hinit] at ha
  by_cases hhit : 0 < c.cache_count
  · rw [if_pos hhit] at ha
    injection ha with ha
    rw [← ha]
    exact hcache (c.cache_count - 1) (Nat.sub_lt hhit Nat.one_pos)
  · rw [if_neg hhit] at ha
    have ha' : slab_alloc p.global_slab = (some q, (slab_alloc p.global_slab).2) := by
      rw [← ha]
    exact slab_alloc_aligned p.global_slab hinv q _ ha'

/-- C6 (amended): every non-null pointer returned by `slab_alloc` (on
an invariant slab) or by `arena_alloc` (on an aligned arena state) is
cache-line aligned; a non-null pointer returned by `pool_alloc` is
cache-line aligned provided every pointer previously parked in the
thread cache was itself aligned — `pool_free` accepts arbitrary
pointers into the cache, so without that proviso the guarantee fails
(see the counterexample). -/
theorem claim_C6_amended :
    (∀ (s : Slab), s.Inv → ∀ (p : Nat) (s' : Slab),
      slab_alloc s = (some p, s') → p % CACHE_LINE_SIZE = 0) ∧
    (∀ (a : Arena), a.memory % CACHE_LINE_SIZE = 0 → a.offset % CACHE_LINE_SIZE = 0 →
      ∀ (sz q : Nat) (a' : Arena),
        arena_alloc a sz = (some q, a') → q % CACHE_LINE_SIZE = 0) ∧
    (∀ (p : Mempool) (c : ThreadCache), p.global_slab.Inv →
      (∀ i, i < c.cache_count → c.local_cache.getD i 0 % CACHE_LINE_SIZE = 0) →
      ∀ q, (pool_alloc (some p) (some c)).1 = some q → q % CACHE_LINE_SIZE = 0) :=
  ⟨fun s h p s' ha => slab_alloc_aligned s h p s' ha,
   fun a hm ho sz q a' ha => arena_alloc_aligned a hm ho sz q a' ha,
   fun p c hinv hcache q ha => pool_alloc_aligned p c hinv hcache q ha⟩

/-- C6 counterexample for the claim as stated: from the freshly created
pool, the reachable call sequence `pool_free(pool, 1)` (accepted, cached)
followed by `pool_alloc(pool)` returns the non-null pointer `1`, which
is not LINE-aligned. -/
theorem claim_C6_counterexample :
    pool_create 64 64 1 1 = some poolOne ∧
    (pool_free (some poolOne) (some (freshCache 1)) 1).1 = 0 ∧
    (pool_alloc (pool_free (some poolOne) (some (freshCache 1)) 1).2.1
      (pool_free (some poolOne) (some (freshCache 1)) 1).2.2).1 = some 1 ∧
    ¬ ((1 : Nat) % CACHE_LINE_SIZE = 0) := by decide
